import Mathlib

/-!
Formal model of the agentic-flow concurrent dispatch runtime
(`src/worker.rs`, `src/tool_registry.rs`, `src/mcp_manager.rs`, `src/actor.rs`).

Rust `serde_json::Value` is modelled by `Value`, `std::collections::HashMap`
by association lists with overwrite-on-insert semantics (`mapInsert`,
`mapGet?`, `mapContains`, `mapRemove`), and fallible Rust functions by
`Except AgenticFlowError`.  External effects (subprocess spawn, MCP
handshake, `list_tools`, `cancel`, `call_tool` outcomes, channel
send/receive outcomes) are modelled as explicit outcome parameters, since
the Rust code only branches on their results.
-/

/-- Model of `serde_json::Value`. -/
inductive Value where
  | null : Value
  | bool (b : Bool) : Value
  | num (n : Int) : Value
  | str (s : String) : Value
  | arr (xs : List Value) : Value
  | obj (fields : List (String × Value)) : Value

/-- The error enum from `src/errors.rs`, together with the
`ExecutionError` variant that `src/worker.rs` constructs for
pool-lifecycle failures. -/
inductive AgenticFlowError where
  | PlanningError (msg : String) : AgenticFlowError
  | ToolError (msg : String) : AgenticFlowError
  | ApiClientError (msg : String) : AgenticFlowError
  | ParseError (msg : String) : AgenticFlowError
  | NetworkError (msg : String) : AgenticFlowError
  | ServerNotFound : AgenticFlowError
  | ExecutionError (msg : String) : AgenticFlowError
deriving DecidableEq

/-- `HashMap::get` on an association-list model of a hash map. -/
def mapGet? {α : Type} : List (String × α) → String → Option α
  | [], _ => none
  | (k', v) :: rest, k => if k' = k then some v else mapGet? rest k

/-- `HashMap::insert`: overwrites the entry for an existing key,
otherwise adds a fresh entry. -/
def mapInsert {α : Type} : List (String × α) → String → α → List (String × α)
  | [], k, v => [(k, v)]
  | (k', v') :: rest, k, v =>
      if k' = k then (k, v) :: rest else (k', v') :: mapInsert rest k v

/-- `HashMap::contains_key`. -/
def mapContains {α : Type} (m : List (String × α)) (k : String) : Bool :=
  (mapGet? m k).isSome

/-- `HashMap::remove` (key erased from the map). -/
def mapRemove {α : Type} : List (String × α) → String → List (String × α)
  | [], _ => []
  | (k', v) :: rest, k =>
      if k' = k then mapRemove rest k else (k', v) :: mapRemove rest k

/-! ## Execution context (`src/tool_registry.rs`, `ExecutionContext`) -/

/-- `ExecutionContext`: a mutable key→JSON record passed into tool handlers. -/
structure ExecutionContext where
  data : List (String × Value)

/-- `ExecutionContext::new()`. -/
def ExecutionContext.new : ExecutionContext := { data := [] }

/-- `ExecutionContext::get`. -/
def ExecutionContext.get (c : ExecutionContext) (key : String) : Option Value :=
  mapGet? c.data key

/-- `ExecutionContext::set` (insertion overwrites the same key). -/
def ExecutionContext.set (c : ExecutionContext) (key : String) (value : Value) :
    ExecutionContext :=
  { c with data := mapInsert c.data key value }

/-! ## Process / connection manager (`src/mcp_manager.rs`)

The `rmcp` client service is external code: we model a `RunningService`
by the outcomes the manager's code branches on — the result of
`list_tools`, the result of `cancel`, and the per-call result of
`call_tool`. -/

/-- One tool record as returned by the remote `list_tools` query
(`rmcp` tool: name, optional description, schema). -/
structure RemoteTool where
  name : String
  description : Option String
  schema : Value

/-- Result payload of a successful `list_tools` call. -/
structure ListToolsOk where
  tools : List RemoteTool

/-- Result payload of a `call_tool` call
(`structured_content` is an `Option<Value>`). -/
structure CallToolOk where
  structured_content : Option Value

/-- Model of `rmcp::service::RunningService`: the externally determined
outcomes of the three operations the manager invokes on it. -/
structure RunningService where
  listToolsResult : Except String ListToolsOk
  cancelResult : Except String Unit
  callToolResult : String → Value → Except String CallToolOk

/-- `ConnectionStatus` from `src/mcp_manager.rs`. -/
inductive ConnectionStatus where
  | Connected : ConnectionStatus
  | Disconnected : ConnectionStatus
  | Error (e : AgenticFlowError) : ConnectionStatus

/-- `ServerConnection`. -/
structure ServerConnection where
  service : RunningService
  status : ConnectionStatus

/-- `ServerType` (Python | Node). -/
inductive ServerType where
  | Python : ServerType
  | Node : ServerType

/-- `ServerConfig`. -/
structure ServerConfig where
  server_type : ServerType
  module_name : Option String
  package_name : Option String
  auto_install : Bool
  config : Option Value

/-- `MCPConfig`. -/
structure MCPConfig where
  servers : List (String × ServerConfig)

/-- `MCPManager`: connection map plus static configuration. -/
structure MCPManager where
  active_servers : List (String × ServerConnection)
  config : MCPConfig

/-- `MCPManager::new`. -/
def MCPManager.new (config : MCPConfig) : MCPManager :=
  { active_servers := [], config := config }

/-- `MCPTool` (discovered remote tool, tagged with its server). -/
structure MCPTool where
  name : String
  description : String
  input_schema : Value
  server_name : String

/-- Environment outcome of one launch attempt in `start_server`:
either `TokioChildProcess::new` fails (spawn error), or the subprocess
spawns and the `serve(...)` handshake fails, or both succeed yielding a
running service. -/
inductive LaunchOutcome where
  | spawnError (msg : String) : LaunchOutcome
  | serveError (msg : String) : LaunchOutcome
  | serveOk (service : RunningService) : LaunchOutcome

/-- Result of a Rust `&mut self` method that can return `Ok`, return an
error, or panic; the `ok` and `err` constructors carry the post-call
state of the receiver. -/
inductive StepResult (α : Type) where
  | ok (a : α) : StepResult α
  | err (e : AgenticFlowError) (a : α) : StepResult α
  | panic : StepResult α

/-- `MCPManager::start_server`.  The config lookup and the missing
module/package names yield early `Err` returns; a spawn failure is
mapped to a `ToolError` and propagated with `?`; the `serve` result is
`.unwrap()`-ed (line 100 of `src/mcp_manager.rs`), so a handshake error
panics; only on full success is a `Connected` entry inserted. -/
def MCPManager.start_server (m : MCPManager) (server_name : String)
    (launch : LaunchOutcome) : StepResult MCPManager :=
  match mapGet? m.config.servers server_name with
  | none => .err (.ToolError ("Server config not found: " ++ server_name)) m
  | some server_config =>
    let launched : Except AgenticFlowError (Except String RunningService) :=
      match server_config.server_type with
      | .Python =>
        match server_config.module_name with
        | none => .error (.ToolError "Python module name required")
        | some _ =>
          match launch with
          | .spawnError e => .error (.ToolError ("Failed to start Python server: " ++ e))
          | .serveError e => .ok (.error e)
          | .serveOk s => .ok (.ok s)
      | .Node =>
        match server_config.package_name with
        | none => .error (.ToolError "Node package name required")
        | some _ =>
          match launch with
          | .spawnError e => .error (.ToolError ("Failed to start Node server: " ++ e))
          | .serveError e => .ok (.error e)
          | .serveOk s => .ok (.ok s)
    match launched with
    | .error e => .err e m
    | .ok (.error _) => .panic
    | .ok (.ok service) =>
        .ok { m with
              active_servers :=
                mapInsert m.active_servers server_name
                  { service := service, status := .Connected } }

/-- `MCPManager::stop_server`: removes the entry if present, then awaits
`cancel`; a missing name is a no-op `Ok`. -/
def MCPManager.stop_server (m : MCPManager) (server_name : String) :
    StepResult MCPManager :=
  match mapGet? m.active_servers server_name with
  | some connection =>
    let m' : MCPManager :=
      { m with active_servers := mapRemove m.active_servers server_name }
    match connection.service.cancelResult with
    | .error e =>
        .err (.ToolError ("Failed to stop server \x27" ++ server_name ++ "\x27: " ++ e)) m'
    | .ok _ => .ok m'
  | none => .ok m

/-- `MCPManager::get_server_tools`.  Note the body: the `Result` of
`list_tools` is bound to `tools` and then *iterated*
(`tools.iter().flat_map(..)`): iterating a `Result` yields the `Ok`
payload once and yields nothing on `Err`, so a listing error produces
`Ok(vec![])` rather than an error. -/
def MCPManager.get_server_tools (m : MCPManager) (server_name : String) :
    Except AgenticFlowError (List MCPTool) :=
  match mapGet? m.active_servers server_name with
  | none => .error .ServerNotFound
  | some connection =>
    let tools := connection.service.listToolsResult
    .ok (match tools with
      | .error _ => []
      | .ok t =>
          t.tools.map fun tool =>
            { name := tool.name
              description := tool.description.getD ""
              input_schema := tool.schema
              server_name := server_name })

/-- `MCPManager::get_active_server_names`. -/
def MCPManager.get_active_server_names (m : MCPManager) : List String :=
  m.active_servers.map Prod.fst

/-- `MCPManager::get_server_connection`. -/
def MCPManager.get_server_connection (m : MCPManager) (server_name : String) :
    Option ServerConnection :=
  mapGet? m.active_servers server_name

/-! ## Tool registry (`src/tool_registry.rs`) -/

/-- A local tool (`LocalTool` trait object): name, description,
parameter schema, and an execute function.  Mutation of the
`&mut ExecutionContext` argument is modelled by returning the updated
context alongside the result. -/
structure LocalTool where
  name : String
  description : String
  parameter_schema : Value
  execute : Value → ExecutionContext → Except AgenticFlowError Value × ExecutionContext

/-- `MCPToolDescriptor`. -/
structure MCPToolDescriptor where
  server_name : String
  tool_name : String
  description : String
  input_schema : Value

/-- `ToolDescriptor` (Local | MCP). -/
inductive ToolDescriptor where
  | Local (name description : String) (schema : Value) : ToolDescriptor
  | MCP (name description : String) (schema : Value) (server_name : String) : ToolDescriptor

/-- The name of a catalog entry. -/
def ToolDescriptor.nameOf : ToolDescriptor → String
  | .Local name _ _ => name
  | .MCP name _ _ _ => name

/-- Whether a catalog entry is a `Local` descriptor
(the `matches!(t, ToolDescriptor::Local { .. })` predicate used by
`refresh_mcp_tools`). -/
def ToolDescriptor.isLocal : ToolDescriptor → Bool
  | .Local _ _ _ => true
  | .MCP _ _ _ _ => false

/-- `ToolRegistry`. -/
structure ToolRegistry where
  local_tools : List (String × LocalTool)
  mcp_tool_map : List (String × MCPToolDescriptor)
  available_tools : List ToolDescriptor

/-- `ToolRegistry::new`. -/
def ToolRegistry.new : ToolRegistry :=
  { local_tools := [], mcp_tool_map := [], available_tools := [] }

/-- `ToolRegistry::register_local_tool`: inserts into the handler map
(overwriting an existing entry of the same name) and appends a `Local`
descriptor to the catalog unconditionally. -/
def ToolRegistry.register_local_tool (r : ToolRegistry) (tool : LocalTool) :
    ToolRegistry :=
  { r with
    local_tools := mapInsert r.local_tools tool.name tool
    available_tools :=
      r.available_tools ++
        [ToolDescriptor.Local tool.name tool.description tool.parameter_schema] }

/-- `ToolRegistry::get_tools_names`. -/
def ToolRegistry.get_tools_names (r : ToolRegistry) : List String :=
  r.available_tools.map ToolDescriptor.nameOf

/-- The body of the inner `for tool in tools` loop of
`refresh_mcp_tools`: the bare name is kept unless it is already a key of
the remote map, in which case the entry is re-keyed as
`"{server_name}::{tool_name}"`; the catalog gets the corresponding `MCP`
descriptor appended. -/
def ToolRegistry.refreshStep (server_name : String) (tool : MCPTool)
    (r : ToolRegistry) : ToolRegistry :=
  let tool_name := tool.name
  let mcp_descriptor : MCPToolDescriptor :=
    { server_name := server_name
      tool_name := tool_name
      description := tool.description
      input_schema := tool.input_schema }
  let final_tool_name :=
    if mapContains r.mcp_tool_map tool_name then
      server_name ++ "::" ++ tool_name
    else
      tool_name
  { r with
    mcp_tool_map := mapInsert r.mcp_tool_map final_tool_name mcp_descriptor
    available_tools :=
      r.available_tools ++
        [ToolDescriptor.MCP final_tool_name tool.description tool.input_schema
          server_name] }

/-- `ToolRegistry::refresh_mcp_tools`: clears the remote map and the
`MCP` catalog entries, then for every active server lists its tools
(`?`-propagating that call's error) and folds `refreshStep` over them. -/
def ToolRegistry.refresh_mcp_tools (r : ToolRegistry) (manager : MCPManager) :
    Except AgenticFlowError ToolRegistry :=
  let r0 : ToolRegistry :=
    { r with
      mcp_tool_map := []
      available_tools := r.available_tools.filter ToolDescriptor.isLocal }
  manager.get_active_server_names.foldlM
    (fun acc server_name => do
      let tools ← manager.get_server_tools server_name
      pure (tools.foldl (fun a tool => ToolRegistry.refreshStep server_name tool a) acc))
    r0

/-- `ToolRegistry::execute_mcp_tool`: looks up the live connection for
the descriptor's server and forwards `call_tool`; an empty structured
payload defaults to JSON null (`unwrap_or_default`). -/
def ToolRegistry.execute_mcp_tool (descriptor : MCPToolDescriptor) (params : Value)
    (manager : MCPManager) : Except AgenticFlowError Value :=
  match manager.get_server_connection descriptor.server_name with
  | none => .error .ServerNotFound
  | some connection =>
    match connection.service.callToolResult descriptor.tool_name params with
    | .error e =>
        .error (.ToolError ("Failed to call MCP tool \x27" ++ descriptor.tool_name
          ++ "\x27: " ++ e))
    | .ok result => .ok (result.structured_content.getD Value.null)

/-- `ToolRegistry::execute_tool`: local lookup first, then the remote
map, otherwise a "tool not found" `ToolError`.  The context is handed to
local handlers only. -/
def ToolRegistry.execute_tool (r : ToolRegistry) (tool_name : String) (params : Value)
    (manager : MCPManager) (context : ExecutionContext) :
    Except AgenticFlowError Value × ExecutionContext :=
  match mapGet? r.local_tools tool_name with
  | some local_tool => local_tool.execute params context
  | none =>
    match mapGet? r.mcp_tool_map tool_name with
    | some mcp_descriptor =>
        (ToolRegistry.execute_mcp_tool mcp_descriptor params manager, context)
    | none =>
        (.error (.ToolError ("Tool \x27" ++ tool_name ++ "\x27 not found")), context)

/-! ## Worker pool (`src/worker.rs`) -/

/-- `PlanStep` from `src/planner.rs`. -/
structure PlanStep where
  tool_name : String
  params : Value

/-- Outcome of `sender.send(worker_task).await`: the bounded queue
either accepts the task or is closed (all receivers gone). -/
inductive SendOutcome where
  | accepted : SendOutcome
  | closed : SendOutcome

/-- Outcome of `response_rx.await` on the single-use reply channel:
either a value was delivered, or the sender was dropped without one. -/
inductive ReplyOutcome where
  | delivered (r : Except AgenticFlowError Value) : ReplyOutcome
  | dropped : ReplyOutcome

/-- `AgenticTaskPool::execute_step` (src/worker.rs lines 136–157) as a
function of the pool's sender state and the channel outcomes of this
submission: a missing sender or a closed queue yields the
"Task pool is shut down" `ExecutionError`; a dropped reply channel
yields "Worker disconnected"; a delivered reply is returned verbatim
(the worker sends the handler's own `Result`). -/
def execute_step (sender_present : Bool) (send : SendOutcome)
    (reply : ReplyOutcome) : Except AgenticFlowError Value :=
  match sender_present with
  | true =>
    match send with
    | .closed => .error (.ExecutionError "Task pool is shut down")
    | .accepted =>
      match reply with
      | .dropped => .error (.ExecutionError "Worker disconnected")
      | .delivered r => r
  | false => .error (.ExecutionError "Task pool is shut down")

/-- Observable submission/completion events of one `execute_parallel`
call; `submit i` is the send of slot `i` into the worker queue and
`complete i` the arrival of its reply. -/
inductive PoolEvent where
  | submit (slot : Nat) : PoolEvent
  | complete (slot : Nat) : PoolEvent
deriving DecidableEq

/-- The awaiting loop of `AgenticTaskPool::execute_parallel`
(src/worker.rs lines 169–187), with slot indices starting at `i`.
`execute_step(step)` is an `async fn`, so the future built for each
step in the first loop performs no work until awaited; the second loop
awaits the futures one at a time, so slot `i` is submitted and
completed before slot `i+1` is even submitted, and the `?` on
`handle.await` returns the first error immediately, dropping the
remaining futures unpolled.  `outcomes` is the reply each slot would
receive from its worker. -/
def execute_parallel_from (i : Nat) :
    List (Except AgenticFlowError Value) →
      Except AgenticFlowError (List Value) × List PoolEvent
  | [] => (.ok [], [])
  | o :: rest =>
    match o with
    | .error e => (.error e, [PoolEvent.submit i, PoolEvent.complete i])
    | .ok v =>
      let next := execute_parallel_from (i + 1) rest
      (next.1.map (fun vs => v :: vs),
        PoolEvent.submit i :: PoolEvent.complete i :: next.2)

/-- `AgenticTaskPool::execute_parallel`: result and event trace of the
whole call. -/
def execute_parallel (outcomes : List (Except AgenticFlowError Value)) :
    Except AgenticFlowError (List Value) × List PoolEvent :=
  execute_parallel_from 0 outcomes

/-- The worker loop body of `AgenticTaskPool::new_with_capacity`
(src/worker.rs lines 89–114): for each received task a fresh
`ExecutionContext::new()` is created, the step is executed against it
through the shared agent, and only the result is sent back — the
context is dropped at the end of the iteration.  `run` is the agent's
`execute_tool` (a pure model of the shared executor). -/
def workerLoop
    (run : PlanStep → ExecutionContext → Except AgenticFlowError Value × ExecutionContext) :
    List PlanStep → List (Except AgenticFlowError Value)
  | [] => []
  | worker_task :: rest =>
    let context := ExecutionContext.new
    let result := (run worker_task context).1
    result :: workerLoop run rest

/-! ## Actor runtime (`src/actor.rs`)

A oneshot reply channel is modelled by a numeric slot; a reply is a
`(slot, payload)` pair.  `Message::ExecuteTool` and
`Message::HealthCheck` each carry the slot of their reply channel. -/

/-- `Message` from `src/actor.rs` with reply channels as slots. -/
inductive QMsg where
  | execTool (tool_name : String) (params : Value) (slot : Nat) : QMsg
  | health (slot : Nat) : QMsg
  | shutdown : QMsg

/-- The messages dispatched to `actor.handle_message` by the spawned
loop of `ActorSystem::spawn_actor` (src/actor.rs lines 115–127): the
queue is drained in order until the first `Shutdown`, which breaks the
loop; everything after it is never received because the receiver is
dropped when the task returns. -/
def actorProcessed : List QMsg → List QMsg
  | [] => []
  | .shutdown :: _ => []
  | m :: rest => m :: actorProcessed rest

/-- The replies delivered by the same loop, given the actor
implementation's reply behaviour `handle` (which replies are sent on
which slots when one message is handled); handler errors are logged and
the loop continues. -/
def actorReplies {ρ : Type} (handle : QMsg → List (Nat × ρ)) :
    List QMsg → List (Nat × ρ)
  | [] => []
  | .shutdown :: _ => []
  | m :: rest => handle m ++ actorReplies handle rest

/-- `ActorHandle::call` (src/actor.rs lines 65–76): awaiting the fresh
reply slot succeeds with the delivered payload, and fails with
`NetworkError "Failed to receive response"` when the slot's sender is
dropped without a reply. -/
def callResult {ρ : Type} (delivered : List (Nat × ρ)) (slot : Nat) :
    Except AgenticFlowError ρ :=
  match delivered.find? (fun p => p.1 == slot) with
  | some p => .ok p.2
  | none => .error (.NetworkError "Failed to receive response")

/-! ## Small projections and concrete instances used in the analysis -/

/-- The post-call state carried by an `err` result (and `none` for `ok`
and `panic`): used to state "returns an error and leaves the state
unchanged". -/
def StepResult.errState {α : Type} : StepResult α → Option α
  | .err _ a => some a
  | _ => none

/-- Whether an `Except` value is `ok`. -/
def exceptIsOk {ε α : Type} : Except ε α → Bool
  | .ok _ => true
  | .error _ => false

/-- Registering a list of tools in order on a fresh registry. -/
def ToolRegistry.registerAll (ts : List LocalTool) : ToolRegistry :=
  ts.foldl ToolRegistry.register_local_tool ToolRegistry.new

/-- A local echo tool (the `EchoTool` used by the repository's tests):
returns its parameters unchanged. -/
def echoTool : LocalTool :=
  { name := "echo"
    description := "Echoes its parameters"
    parameter_schema := Value.null
    execute := fun params context => (.ok params, context) }

/-- A second registration under the same name `"echo"`. -/
def echoTool2 : LocalTool :=
  { name := "echo"
    description := "Echoes (second registration)"
    parameter_schema := Value.null
    execute := fun params context => (.ok params, context) }

/-- A registry where `"echo"` has been registered twice. -/
def c7Registry : ToolRegistry :=
  (ToolRegistry.new.register_local_tool echoTool).register_local_tool echoTool2

/-- A live service whose `list_tools` query fails. -/
def failingListService : RunningService :=
  { listToolsResult := .error "transport error: connection reset"
    cancelResult := .ok ()
    callToolResult := fun _ _ => .error "unused" }

/-- A manager holding one active connection whose tool listing errors. -/
def c2Manager : MCPManager :=
  { active_servers := [("srv", { service := failingListService, status := .Connected })]
    config := { servers := [] } }

/-- A live service exposing one remote tool named `"echo"`. -/
def s1EchoService : RunningService :=
  { listToolsResult :=
      .ok { tools := [{ name := "echo", description := some "remote echo",
                        schema := Value.null }] }
    cancelResult := .ok ()
    callToolResult := fun _ _ => .ok { structured_content := some (Value.str "remote") } }

/-- A registry that already has a *local* tool named `"echo"`. -/
def c4Registry : ToolRegistry := ToolRegistry.new.register_local_tool echoTool

/-- A manager with one active server `"s1"` exposing remote `"echo"`. -/
def c4Manager : MCPManager :=
  { active_servers := [("s1", { service := s1EchoService, status := .Connected })]
    config := { servers := [] } }

/-- The registry after `refresh_mcp_tools` on `c4Registry`/`c4Manager`
(the refresh succeeds; the fallback branch is unreachable). -/
def c4Refreshed : ToolRegistry :=
  match c4Registry.refresh_mcp_tools c4Manager with
  | .ok r => r
  | .error _ => ToolRegistry.new

/-- A discovered remote tool `"dup"` hosted by server `"s2"`. -/
def dupToolS2 : MCPTool :=
  { name := "dup", description := "from s2", input_schema := Value.null
    server_name := "s2" }

/-- A registry whose remote map already holds a bare `"dup"` from
server `"s1"`. -/
def c4wRegistry : ToolRegistry :=
  { local_tools := []
    mcp_tool_map :=
      [("dup", { server_name := "s1", tool_name := "dup",
                 description := "from s1", input_schema := Value.null })]
    available_tools := [] }

/-- Remote descriptor for `"ping"` on server `"s1"`. -/
def c5PingDescriptor : MCPToolDescriptor :=
  { server_name := "s1", tool_name := "ping", description := "ping"
    input_schema := Value.null }

/-- A registry with a local `"echo"`, a remote `"echo"` (shadowed) and a
remote `"s1::ping"`. -/
def c5Registry : ToolRegistry :=
  { local_tools := [("echo", echoTool)]
    mcp_tool_map :=
      [("echo", { server_name := "s1", tool_name := "echo",
                  description := "remote echo", input_schema := Value.null }),
       ("s1::ping", c5PingDescriptor)]
    available_tools := [] }

/-- A manager for the `c5Registry` scenario. -/
def c5Manager : MCPManager :=
  { active_servers := [("s1", { service := s1EchoService, status := .Connected })]
    config := { servers := [] } }

/-- Reply behaviour of the spec's echo actor on boolean reply channels:
a `HealthCheck` is answered with `true` on its own slot; no other
message sends on a boolean slot. -/
def echoHealthReplies : QMsg → List (Nat × Bool)
  | .health slot => [(slot, true)]
  | .execTool _ _ _ => []
  | .shutdown => []

/-- Per-slot replies for a three-step `execute_parallel` call whose
second step's handler fails. -/
def c1Outcomes : List (Except AgenticFlowError Value) :=
  [.ok (Value.str "one"), .error (.ToolError "echo failed"), .ok (Value.str "three")]

/-- A healthy connection for server `"s1"` whose `cancel` succeeds. -/
def c9Connection : ServerConnection :=
  { service :=
      { listToolsResult := .ok { tools := [] }
        cancelResult := .ok ()
        callToolResult := fun _ _ => .error "unused" }
    status := .Connected }

/-- A manager with the single active server `"s1"`. -/
def c9Manager : MCPManager :=
  { active_servers := [("s1", c9Connection)], config := { servers := [] } }

/-- `c9Manager` after `"s1"` has been stopped. -/
def c9ManagerStopped : MCPManager :=
  { c9Manager with active_servers := mapRemove c9Manager.active_servers "s1" }

/-! ## Map lemmas -/

theorem mapGet?_mapInsert_self {α : Type} (m : List (String × α)) (k : String) (v : α) :
    mapGet? (mapInsert m k v) k = some v := by
  induction m with
  | nil => simp [mapInsert, mapGet?]
  | cons hd tl ih =>
      obtain ⟨k', v'⟩ := hd
      by_cases h : k' = k
      · simp [mapInsert, h, mapGet?]
      · simp [mapInsert, h, mapGet?, ih]

theorem mapGet?_mapInsert_ne {α : Type} (m : List (String × α)) (k n : String) (v : α)
    (h : n ≠ k) : mapGet? (mapInsert m k v) n = mapGet? m n := by
  induction m with
  | nil => simp [mapInsert, mapGet?, Ne.symm h]
  | cons hd tl ih =>
      obtain ⟨k', v'⟩ := hd
      by_cases hk : k' = k
      · subst hk
        simp [mapInsert, mapGet?, Ne.symm h]
      · by_cases hn : k' = n
        · subst hn
          simp [mapInsert, hk, mapGet?, h]
        · simp [mapInsert, hk, mapGet?, hn, ih]

theorem mapGet?_mapRemove_self {α : Type} (m : List (String × α)) (k : String) :
    mapGet? (mapRemove m k) k = none := by
  induction m with
  | nil => simp [mapRemove, mapGet?]
  | cons hd tl ih =>
      obtain ⟨k', v'⟩ := hd
      by_cases h : k' = k
      · simp [mapRemove, h, ih]
      · simp [mapRemove, h, mapGet?, ih]

/-! ## Claim theorems -/

/-- C3: for every manager state and server name, when launching the
subprocess fails (`TokioChildProcess::new` returns an error),
`MCPManager::start_server` returns an error value — it neither succeeds
nor reaches the `serve(...).unwrap()` panic — and the post-call state is
the unchanged manager, so no connection entry is recorded. -/
theorem start_server_spawn_failure_no_partial_state
    (m : MCPManager) (server_name msg : String) :
    (m.start_server server_name (.spawnError msg)).errState = some m := by
  unfold MCPManager.start_server
  cases h : mapGet? m.config.servers server_name with
  | none => rfl
  | some server_config =>
      obtain ⟨st, mn, pn, ai, cf⟩ := server_config
      cases st with
      | Python =>
          cases mn with
          | none => rfl
          | some v => rfl
      | Node =>
          cases pn with
          | none => rfl
          | some v => rfl

/-- C8: `AgenticTaskPool::execute_step` yields the
`"Task pool is shut down"` execution error exactly in the two
queue-closed situations (sender taken by shutdown, or send into a
closed channel), yields `"Worker disconnected"` exactly when the reply
channel is dropped without a value, and otherwise returns the delivered
handler result verbatim — in particular a handler-level failure comes
back as the task's own `Result` value, not as a pool-lifecycle error. -/
theorem execute_step_error_semantics :
    (∀ send reply, execute_step false send reply
        = .error (.ExecutionError "Task pool is shut down"))
    ∧ (∀ reply, execute_step true .closed reply
        = .error (.ExecutionError "Task pool is shut down"))
    ∧ execute_step true .accepted .dropped
        = .error (.ExecutionError "Worker disconnected")
    ∧ (∀ r, execute_step true .accepted (.delivered r) = r)
    ∧ (∀ e, execute_step true .accepted (.delivered (.error e)) = .error e) :=
  ⟨fun _ _ => rfl, fun _ => rfl, rfl, fun _ => rfl, fun _ => rfl⟩

/-- C10: every task a pool worker executes runs against a freshly
created empty `ExecutionContext`: the worker loop equals a per-task map
with `ExecutionContext.new` as each task's initial context, the result
in any slot depends on that slot's step alone, and processing
distributes over list append — no context is threaded from one task to
the next, and the context is dropped after the reply (only the result
leaves the loop). -/
theorem worker_fresh_context_per_task
    (run : PlanStep → ExecutionContext → Except AgenticFlowError Value × ExecutionContext)
    (tasks pre post : List PlanStep) (t : PlanStep) :
    workerLoop run tasks = tasks.map (fun s => (run s ExecutionContext.new).1)
    ∧ workerLoop run (pre ++ post) = workerLoop run pre ++ workerLoop run post
    ∧ (workerLoop run (pre ++ t :: post))[pre.length]?
        = some ((run t ExecutionContext.new).1) := by
  have hmap : ∀ ts : List PlanStep,
      workerLoop run ts = ts.map (fun s => (run s ExecutionContext.new).1) := by
    intro ts
    induction ts with
    | nil => rfl
    | cons hd tl ih => simp [workerLoop, ih]
  refine ⟨hmap tasks, ?_, ?_⟩
  · simp [hmap]
  · induction pre with
    | nil => simp [workerLoop]
    | cons hd tl ih => simpa [workerLoop] using ih

/-- C1: evaluation of `AgenticTaskPool::execute_parallel` on a
three-step submission whose second step's handler fails.  The event
trace shows the steps are *not* all submitted up front: slot 1 is
submitted only after slot 0 completed, the whole call returns the bare
error of slot 1 (no per-slot results), and slot 2 is never submitted at
all — contradicting concurrent submission and slot-local failure
reporting. -/
theorem execute_parallel_sequential_abort_eval :
    execute_parallel c1Outcomes =
      (.error (.ToolError "echo failed"),
        [PoolEvent.submit 0, PoolEvent.complete 0,
         PoolEvent.submit 1, PoolEvent.complete 1])
    ∧ PoolEvent.submit 2 ∉ (execute_parallel c1Outcomes).2 := by
  refine ⟨rfl, ?_⟩
  decide

/-- C2: evaluation of `MCPManager::get_server_tools` on an active
connection whose `list_tools` query errors: the call *succeeds* with an
empty tool list (the `Result` is iterated, not propagated), and
`ToolRegistry::refresh_mcp_tools` over that manager succeeds as well —
the listing failure never reaches the caller. -/
theorem get_server_tools_swallows_listing_error_eval :
    c2Manager.get_server_tools "srv" = .ok []
    ∧ exceptIsOk (ToolRegistry.new.refresh_mcp_tools c2Manager) = true :=
  ⟨rfl, rfl⟩

/-- C5: `ToolRegistry::execute_tool` resolves local first, then remote:
a name in the local handler map runs the local handler (a remote tool
of the same name is never reached), otherwise a name in the remote map
is routed through the process manager via its stored descriptor, and
otherwise the result is the "tool not found" failure. -/
theorem execute_tool_resolution (r : ToolRegistry) (tool_name : String)
    (params : Value) (manager : MCPManager) (context : ExecutionContext) :
    (∀ local_tool, mapGet? r.local_tools tool_name = some local_tool →
      r.execute_tool tool_name params manager context
        = local_tool.execute params context)
    ∧ (∀ mcp_descriptor, mapGet? r.local_tools tool_name = none →
        mapGet? r.mcp_tool_map tool_name = some mcp_descriptor →
        r.execute_tool tool_name params manager context
          = (ToolRegistry.execute_mcp_tool mcp_descriptor params manager, context))
    ∧ (mapGet? r.local_tools tool_name = none →
        mapGet? r.mcp_tool_map tool_name = none →
        r.execute_tool tool_name params manager context
          = (.error (.ToolError ("Tool \x27" ++ tool_name ++ "\x27 not found")),
             context)) := by
  refine ⟨?_, ?_, ?_⟩
  · intro local_tool h
    simp [ToolRegistry.execute_tool, h]
  · intro mcp_descriptor hl hm
    simp [ToolRegistry.execute_tool, hl, hm]
  · intro hl hm
    simp [ToolRegistry.execute_tool, hl, hm]

/-- Witness for C5 on a registry carrying a local `"echo"`, a shadowed
remote `"echo"`, a remote `"s1::ping"`, and no `"missing"` tool. -/
theorem execute_tool_resolution_witness :
    c5Registry.execute_tool "echo" (Value.str "x") c5Manager ExecutionContext.new
      = echoTool.execute (Value.str "x") ExecutionContext.new
    ∧ c5Registry.execute_tool "s1::ping" Value.null c5Manager ExecutionContext.new
      = (ToolRegistry.execute_mcp_tool c5PingDescriptor Value.null c5Manager,
         ExecutionContext.new)
    ∧ c5Registry.execute_tool "missing" Value.null c5Manager ExecutionContext.new
      = (.error (.ToolError "Tool \x27missing\x27 not found"), ExecutionContext.new) :=
  ⟨(execute_tool_resolution c5Registry "echo" (Value.str "x") c5Manager
      ExecutionContext.new).1 echoTool rfl,
   (execute_tool_resolution c5Registry "s1::ping" Value.null c5Manager
      ExecutionContext.new).2.1 c5PingDescriptor rfl rfl,
   (execute_tool_resolution c5Registry "missing" Value.null c5Manager
      ExecutionContext.new).2.2 rfl rfl⟩

/-- C4 counterexample: a remote tool whose name collides with an
already-registered *local* tool is **not** re-keyed.  After refreshing
`c4Registry` (local `"echo"`) against `c4Manager` (server `"s1"`
exposing remote `"echo"`), the remote map holds the bare key `"echo"`,
there is no `"s1::echo"` key, and the merged catalog carries the name
`"echo"` twice — so a tool name does not map to exactly one descriptor
and the collision with a local name is silently kept. -/
theorem refresh_local_collision_counterexample :
    c4Refreshed.get_tools_names = ["echo", "echo"]
    ∧ mapGet? c4Refreshed.mcp_tool_map "echo"
        = some { server_name := "s1", tool_name := "echo",
                 description := "remote echo", input_schema := Value.null }
    ∧ mapGet? c4Refreshed.mcp_tool_map "s1::echo" = none
    ∧ mapContains c4Refreshed.local_tools "echo" = true :=
  ⟨rfl, rfl, rfl, rfl⟩

/-- C4 (amended): the collision check of `refresh_mcp_tools` is against
the *remote* map only.  When the discovered tool's bare name is already
a key of the remote map, the new entry is re-keyed as
`"{server}::{tool}"` and its descriptor carries the discovering server,
so executing the namespaced name (absent a local handler of that name)
routes through the process manager to that server's descriptor; when
the bare name is free in the remote map it is inserted bare — even if a
local tool of the same name exists. -/
theorem refreshStep_collision_amended (r : ToolRegistry) (server_name : String)
    (tool : MCPTool) :
    (mapContains r.mcp_tool_map tool.name = true →
      mapGet? (ToolRegistry.refreshStep server_name tool r).mcp_tool_map
          (server_name ++ "::" ++ tool.name)
        = some { server_name := server_name, tool_name := tool.name,
                 description := tool.description, input_schema := tool.input_schema })
    ∧ (mapContains r.mcp_tool_map tool.name = false →
      mapGet? (ToolRegistry.refreshStep server_name tool r).mcp_tool_map tool.name
        = some { server_name := server_name, tool_name := tool.name,
                 description := tool.description, input_schema := tool.input_schema })
    ∧ (∀ mgr params context,
        mapContains r.mcp_tool_map tool.name = true →
        mapGet? (ToolRegistry.refreshStep server_name tool r).local_tools
            (server_name ++ "::" ++ tool.name) = none →
        (ToolRegistry.refreshStep server_name tool r).execute_tool
            (server_name ++ "::" ++ tool.name) params mgr context
          = (ToolRegistry.execute_mcp_tool
              { server_name := server_name, tool_name := tool.name,
                description := tool.description, input_schema := tool.input_schema }
              params mgr, context)) := by
  refine ⟨?_, ?_, ?_⟩
  · intro h
    simp [ToolRegistry.refreshStep, h, mapGet?_mapInsert_self]
  · intro h
    simp [ToolRegistry.refreshStep, h, mapGet?_mapInsert_self]
  · intro mgr params context h hl
    simp only [ToolRegistry.refreshStep] at hl
    simp [ToolRegistry.execute_tool, ToolRegistry.refreshStep, h,
      mapGet?_mapInsert_self, hl]

/-- Witness for the amended C4: re-keying of `"dup"` discovered on
`"s2"` when a bare `"dup"` from `"s1"` is already in the remote map,
and the namespaced call routing to the `"s2"` descriptor. -/
theorem refreshStep_collision_amended_witness :
    mapGet? (ToolRegistry.refreshStep "s2" dupToolS2 c4wRegistry).mcp_tool_map
        ("s2" ++ "::" ++ "dup")
      = some { server_name := "s2", tool_name := "dup",
               description := "from s2", input_schema := Value.null }
    ∧ (ToolRegistry.refreshStep "s2" dupToolS2 c4wRegistry).execute_tool
        ("s2" ++ "::" ++ "dup") Value.null c4Manager ExecutionContext.new
      = (ToolRegistry.execute_mcp_tool
          { server_name := "s2", tool_name := "dup",
            description := "from s2", input_schema := Value.null }
          Value.null c4Manager, ExecutionContext.new) :=
  ⟨(refreshStep_collision_amended c4wRegistry "s2" dupToolS2).1 rfl,
   (refreshStep_collision_amended c4wRegistry "s2" dupToolS2).2.2
     c4Manager Value.null ExecutionContext.new rfl rfl⟩

/-- C7 counterexample: registering the name `"echo"` twice leaves two
catalog entries, so `get_tools_names` contains `"echo"` twice — not
exactly once — while the handler map keeps only the last registration. -/
theorem get_tools_names_duplicate_counterexample :
    c7Registry.get_tools_names = ["echo", "echo"]
    ∧ c7Registry.get_tools_names.count "echo" = 2
    ∧ mapGet? c7Registry.local_tools "echo" = some echoTool2 :=
  ⟨rfl, by decide, rfl⟩

/-- Helper: folding `register_local_tool` over a tool list appends the
tools' names to the catalog projection. -/
theorem get_tools_names_foldl_register (ts : List LocalTool) (r : ToolRegistry) :
    (ts.foldl ToolRegistry.register_local_tool r).get_tools_names
      = r.get_tools_names ++ ts.map LocalTool.name := by
  induction ts generalizing r with
  | nil => simp
  | cons hd tl ih =>
      simp only [List.foldl_cons, List.map_cons]
      rw [ih]
      simp [ToolRegistry.register_local_tool, ToolRegistry.get_tools_names,
        ToolDescriptor.nameOf]

/-- C7 (amended): `register_local_tool` never fails (it is total and
its effect is unconditional): it appends exactly one catalog entry
carrying the tool's name, so each name occurs once *per registration* —
in particular, when the registered names are pairwise distinct,
`get_tools_names` contains each tool's name exactly once; under a
duplicate name the last registration wins in the handler map while both
catalog entries remain. -/
theorem register_local_tool_amended (r : ToolRegistry) (tool : LocalTool) :
    (r.register_local_tool tool).get_tools_names
        = r.get_tools_names ++ [tool.name]
    ∧ mapGet? (r.register_local_tool tool).local_tools tool.name = some tool
    ∧ (∀ n, n ≠ tool.name →
        mapGet? (r.register_local_tool tool).local_tools n
          = mapGet? r.local_tools n)
    ∧ (∀ ts : List LocalTool,
        (ToolRegistry.registerAll ts).get_tools_names = ts.map LocalTool.name)
    ∧ (∀ ts : List LocalTool, (ts.map LocalTool.name).Nodup → ∀ t ∈ ts,
        (ToolRegistry.registerAll ts).get_tools_names.count t.name = 1) := by
  refine ⟨?_, ?_, ?_, ?_, ?_⟩
  · simp [ToolRegistry.register_local_tool, ToolRegistry.get_tools_names,
      ToolDescriptor.nameOf]
  · simp [ToolRegistry.register_local_tool, mapGet?_mapInsert_self]
  · intro n hn
    simp [ToolRegistry.register_local_tool, mapGet?_mapInsert_ne _ _ _ _ hn]
  · intro ts
    rw [ToolRegistry.registerAll, get_tools_names_foldl_register]
    rfl
  · intro ts hnd t ht
    rw [ToolRegistry.registerAll, get_tools_names_foldl_register]
    have : ([] : List String) ++ ts.map LocalTool.name = ts.map LocalTool.name := by simp
    rw [show ToolRegistry.new.get_tools_names = ([] : List String) from rfl, this]
    exact List.count_eq_one_of_mem hnd (List.mem_map_of_mem LocalTool.name ht)

/-- Witness for the amended C7: a single registration of the echo tool
on a fresh registry, a lookup of a different name, and the
exactly-once count for distinct registrations. -/
theorem register_local_tool_amended_witness :
    (ToolRegistry.new.register_local_tool echoTool).get_tools_names = ["echo"]
    ∧ mapGet? (ToolRegistry.new.register_local_tool echoTool).local_tools "other"
        = mapGet? ToolRegistry.new.local_tools "other"
    ∧ (ToolRegistry.registerAll [echoTool]).get_tools_names.count "echo" = 1 :=
  ⟨(register_local_tool_amended ToolRegistry.new echoTool).1,
   (register_local_tool_amended ToolRegistry.new echoTool).2.2.1 "other" (by decide),
   (register_local_tool_amended ToolRegistry.new echoTool).2.2.2.2 [echoTool]
     (by simp [echoTool]) echoTool (List.mem_cons_self _ _)⟩

/-- Helper: the actor loop dispatches exactly the messages before the
first `Shutdown` in the queue. -/
theorem actorProcessed_append_shutdown (q1 q2 : List QMsg)
    (h : QMsg.shutdown ∉ q1) :
    actorProcessed (q1 ++ QMsg.shutdown :: q2) = q1 := by
  induction q1 with
  | nil => simp [actorProcessed]
  | cons m rest ih =>
      cases m with
      | shutdown => exact absurd (List.mem_cons_self _ _) h
      | execTool n p s =>
          simp only [List.cons_append, actorProcessed]
          exact congrArg (List.cons _) (ih (fun hm => h (List.mem_cons_of_mem _ hm)))
      | health s =>
          simp only [List.cons_append, actorProcessed]
          exact congrArg (List.cons _) (ih (fun hm => h (List.mem_cons_of_mem _ hm)))

/-- Helper: every reply the loop delivers on a queue truncated by a
`Shutdown` comes from handling some message before the `Shutdown`. -/
theorem actorReplies_mem {ρ : Type} (handle : QMsg → List (Nat × ρ))
    (q1 q2 : List QMsg) (h : QMsg.shutdown ∉ q1) :
    ∀ x ∈ actorReplies handle (q1 ++ QMsg.shutdown :: q2),
      ∃ m, m ∈ q1 ∧ x ∈ handle m := by
  induction q1 with
  | nil => simp [actorReplies]
  | cons m rest ih =>
      intro x hx
      cases m with
      | shutdown => exact absurd (List.mem_cons_self _ _) h
      | execTool n p s =>
          simp only [List.cons_append, actorReplies, List.mem_append] at hx
          rcases hx with hx | hx
          · exact ⟨QMsg.execTool n p s, List.mem_cons_self _ _, hx⟩
          · obtain ⟨m', hm', hxm'⟩ := ih (fun hm => h (List.mem_cons_of_mem _ hm)) x hx
            exact ⟨m', List.mem_cons_of_mem _ hm', hxm'⟩
      | health s =>
          simp only [List.cons_append, actorReplies, List.mem_append] at hx
          rcases hx with hx | hx
          · exact ⟨QMsg.health s, List.mem_cons_self _ _, hx⟩
          · obtain ⟨m', hm', hxm'⟩ := ih (fun hm => h (List.mem_cons_of_mem _ hm)) x hx
            exact ⟨m', List.mem_cons_of_mem _ hm', hxm'⟩

/-- Helper: a `call` whose slot never receives a reply fails with the
`NetworkError` of `ActorHandle::call`. -/
theorem callResult_not_delivered {ρ : Type} (delivered : List (Nat × ρ)) (s : Nat)
    (h : ∀ x ∈ delivered, x.1 ≠ s) :
    callResult delivered s = .error (.NetworkError "Failed to receive response") := by
  unfold callResult
  have hfind : delivered.find? (fun p => p.1 == s) = none := by
    induction delivered with
    | nil => rfl
    | cons hd tl ih =>
        have hhd : (hd.1 == s) = false := by
          simp [h hd (List.mem_cons_self _ _)]
        simp only [List.find?]
        rw [hhd]
        exact ih (fun x hx => h x (List.mem_cons_of_mem _ hx))
  rw [hfind]

/-- C6: once the actor loop of `ActorSystem::spawn_actor` reaches a
`Shutdown`, it terminates permanently: exactly the messages enqueued
before the `Shutdown` are dispatched to the handler — nothing after it
is ever processed — and a correlated call (here a `HealthCheck` on a
fresh reply slot) enqueued after the `Shutdown` fails with the
`"Failed to receive response"` error of `ActorHandle::call`, because
the abandoned inbox drops its reply channel. -/
theorem shutdown_terminates_actor_loop {ρ : Type}
    (handle : QMsg → List (Nat × ρ)) (q1 q2 q3 : List QMsg) (s : Nat)
    (h1 : QMsg.shutdown ∉ q1)
    (h2 : ∀ m ∈ q1, ∀ b, (s, b) ∉ handle m) :
    actorProcessed (q1 ++ QMsg.shutdown :: (q2 ++ QMsg.health s :: q3)) = q1
    ∧ callResult
        (actorReplies handle (q1 ++ QMsg.shutdown :: (q2 ++ QMsg.health s :: q3))) s
      = .error (.NetworkError "Failed to receive response") := by
  refine ⟨actorProcessed_append_shutdown q1 _ h1, ?_⟩
  apply callResult_not_delivered
  intro x hx hxs
  obtain ⟨m, hm, hxm⟩ := actorReplies_mem handle q1 _ h1 x hx
  exact h2 m hm x.2 (by rw [← hxs]; simpa using hxm)

/-- Witness for C6: an echo actor processes a health check on slot 0,
then `Shutdown`; a later health check on the fresh slot 1 is never
processed and its call fails. -/
theorem shutdown_terminates_actor_loop_witness :
    actorProcessed [QMsg.health 0, QMsg.shutdown, QMsg.health 1] = [QMsg.health 0]
    ∧ callResult
        (actorReplies echoHealthReplies [QMsg.health 0, QMsg.shutdown, QMsg.health 1]) 1
      = .error (.NetworkError "Failed to receive response") :=
  shutdown_terminates_actor_loop echoHealthReplies [QMsg.health 0] [] [] 1
    (by simp)
    (by
      intro m hm b hb
      simp only [List.mem_singleton] at hm
      subst hm
      simp [echoHealthReplies] at hb)

/-- Helper: `stop_server` on an absent name is the no-op `Ok`. -/
theorem stop_server_absent (m : MCPManager) (n : String)
    (h : mapGet? m.active_servers n = none) : m.stop_server n = .ok m := by
  unfold MCPManager.stop_server
  rw [h]

/-- Helper: `stop_server` on a present name whose `cancel` succeeds
removes the entry and returns `Ok`. -/
theorem stop_server_present_ok (m : MCPManager) (n : String) (c : ServerConnection)
    (h : mapGet? m.active_servers n = some c)
    (hc : c.service.cancelResult = .ok ()) :
    m.stop_server n
      = .ok { m with active_servers := mapRemove m.active_servers n } := by
  unfold MCPManager.stop_server
  rw [h]
  simp [hc]

/-- Helper: `stop_server` on a present name whose `cancel` fails still
removes the entry, and returns the mapped `ToolError`. -/
theorem stop_server_present_err (m : MCPManager) (n : String) (c : ServerConnection)
    (e : String) (h : mapGet? m.active_servers n = some c)
    (hc : c.service.cancelResult = .error e) :
    m.stop_server n
      = .err (.ToolError ("Failed to stop server \x27" ++ n ++ "\x27: " ++ e))
          { m with active_servers := mapRemove m.active_servers n } := by
  unfold MCPManager.stop_server
  rw [h]
  simp [hc]

/-- Helper: whatever the first `stop_server` call did, the name is
absent from the post-call state it hands back. -/
theorem stop_server_removes (m : MCPManager) (n : String) :
    ∀ m', (m.stop_server n = .ok m' ∨ ∃ e, m.stop_server n = .err e m') →
      mapGet? m'.active_servers n = none := by
  intro m' hm'
  cases hg : mapGet? m.active_servers n with
  | none =>
      rcases hm' with hm' | ⟨e, hm'⟩
      · rw [stop_server_absent m n hg] at hm'
        cases hm'
        exact hg
      · rw [stop_server_absent m n hg] at hm'
        cases hm'
  | some c =>
      cases hc : c.service.cancelResult with
      | ok u =>
          cases u
          rcases hm' with hm' | ⟨e, hm'⟩
          · rw [stop_server_present_ok m n c hg hc] at hm'
            cases hm'
            exact mapGet?_mapRemove_self _ _
          · rw [stop_server_present_ok m n c hg hc] at hm'
            cases hm'
      | error e0 =>
          rcases hm' with hm' | ⟨e, hm'⟩
          · rw [stop_server_present_err m n c e0 hg hc] at hm'
            cases hm'
          · rw [stop_server_present_err m n c e0 hg hc] at hm'
            cases hm'
            exact mapGet?_mapRemove_self _ _

/-- C9: `MCPManager::stop_server` on a name that was never started is a
no-op success; after any first `stop_server` call on a name (whether it
returned `Ok` or a cancellation error), a second call on the post-call
state succeeds with no error and no side effect; and on a live
connection whose graceful cancellation succeeds the first call also
succeeds, leaving only the removal of that entry — so calling it twice
in a row succeeds both times. -/
theorem stop_server_idempotent (m : MCPManager) (server_name : String) :
    (mapGet? m.active_servers server_name = none →
      m.stop_server server_name = .ok m)
    ∧ (∀ m', m.stop_server server_name = .ok m' →
        m'.stop_server server_name = .ok m')
    ∧ (∀ e m', m.stop_server server_name = .err e m' →
        m'.stop_server server_name = .ok m')
    ∧ (∀ connection, mapGet? m.active_servers server_name = some connection →
        connection.service.cancelResult = .ok () →
        m.stop_server server_name
          = .ok { m with
                  active_servers := mapRemove m.active_servers server_name }) := by
  refine ⟨stop_server_absent m server_name, ?_, ?_, ?_⟩
  · intro m' h
    exact stop_server_absent m' server_name
      (stop_server_removes m server_name m' (Or.inl h))
  · intro e m' h
    exact stop_server_absent m' server_name
      (stop_server_removes m server_name m' (Or.inr ⟨e, h⟩))
  · intro connection hg hc
    exact stop_server_present_ok m server_name connection hg hc

/-- Witness for C9: stopping `"s1"` on `c9Manager` succeeds and removes
the entry; stopping it again succeeds with no change; stopping a name
that was never started succeeds with no change. -/
theorem stop_server_idempotent_witness :
    c9Manager.stop_server "s1" = .ok c9ManagerStopped
    ∧ c9ManagerStopped.stop_server "s1" = .ok c9ManagerStopped
    ∧ c9Manager.stop_server "missing" = .ok c9Manager :=
  ⟨(stop_server_idempotent c9Manager "s1").2.2.2 c9Connection rfl rfl,
   (stop_server_idempotent c9Manager "s1").2.1 c9ManagerStopped
     ((stop_server_idempotent c9Manager "s1").2.2.2 c9Connection rfl rfl),
   (stop_server_idempotent c9Manager "missing").1 rfl⟩
